import Mathlib

/-!
Verification of the Dense-Grid Builder (`get_data`) of
`linkedin_relative_skill_group_penetration.py`.

The program's only data-shaping routine is `get_data(df, countries, skills)`
(source lines 35-62).  It computes the cartesian product
`x = list(itertools.product(skills, countries))`, filters the source table to
rows whose (skill, country) key is in `x`, performs two identical outer
pandas merges of the skeleton against the filtered table to extract the
`relative_skill_group_penetration` and `n_occupations_country_skill` columns,
and assigns colors from `bokeh.palettes.Spectral` (for 3-11 countries) or a
single fixed default color.

Pandas semantics embedded here:
  * boolean-mask selection `df[mask]` keeps rows in order and returns a new
    frame (no mutation);
  * `pd.merge(df1, df2, on=keys, how="outer")` (default `sort=False`) emits,
    for each row of the left frame in order, one output row per matching
    right row (in right order), or a single row with missing (NaN) measure
    values when there is no match, followed by the right rows whose key
    matches no left key;
  * selecting a column that is absent from a frame raises `KeyError`;
  * missing values produced by the merge (`NaN`) are modelled as `none`.
-/

/-- One row of the source table, with the four columns `get_data` reads. -/
structure SourceRow where
  skill_group_name : String
  country_name : String
  relative_skill_group_penetration : ℚ
  n_occupations_country_skill : ℚ
  deriving DecidableEq, Repr

/-- The (skill, country) join key of a source row. -/
def keyOf (r : SourceRow) : String × String :=
  (r.skill_group_name, r.country_name)

/-- One row of the merged frame produced by
`pd.merge(df1, df2, on=["skill_group_name", "country_name"], how="outer")`:
the key columns plus the two measure columns, which are `none` (pandas `NaN`)
when the key had no match in the filtered source. -/
structure MergedRow where
  skill_group_name : String
  country_name : String
  relative_skill_group_penetration : Option ℚ
  n_occupations_country_skill : Option ℚ
  deriving DecidableEq, Repr

/-- The (skill, country) key of a merged row. -/
def MergedRow.key (m : MergedRow) : String × String :=
  (m.skill_group_name, m.country_name)

/-- The dictionary `data = dict(x=x, y=y, z=z)` plus `data["color"]` returned
by `get_data`: pair keys, ratio values, occupation-count values, colors. -/
structure GridData where
  x : List (String × String)
  y : List (Option ℚ)
  z : List (Option ℚ)
  color : List String
  deriving DecidableEq, Repr

/-- Embedding of the external dependency `bokeh.palettes.Spectral`: a
dictionary mapping palette sizes 3 through 11 (and no other key) to a tuple
of that many hex color strings.  Only the key range and the tuple lengths
matter to the theorems below; the hues are bokeh's Spectral values. -/
def Spectral : Nat → Option (List String)
  | 3 => some ["#99d594", "#ffffbf", "#fc8d59"]
  | 4 => some ["#2b83ba", "#abdda4", "#fdae61", "#d7191c"]
  | 5 => some ["#2b83ba", "#abdda4", "#ffffbf", "#fdae61", "#d7191c"]
  | 6 => some ["#3288bd", "#99d594", "#e6f598", "#fee08b", "#fc8d59", "#d53e4f"]
  | 7 => some ["#3288bd", "#99d594", "#e6f598", "#ffffbf", "#fee08b", "#fc8d59",
               "#d53e4f"]
  | 8 => some ["#3288bd", "#66c2a5", "#abdda4", "#e6f598", "#fee08b", "#fdae61",
               "#f46d43", "#d53e4f"]
  | 9 => some ["#3288bd", "#66c2a5", "#abdda4", "#e6f598", "#ffffbf", "#fee08b",
               "#fdae61", "#f46d43", "#d53e4f"]
  | 10 => some ["#5e4fa2", "#3288bd", "#66c2a5", "#abdda4", "#e6f598", "#fee08b",
                "#fdae61", "#f46d43", "#d53e4f", "#9e0142"]
  | 11 => some ["#5e4fa2", "#3288bd", "#66c2a5", "#abdda4", "#e6f598", "#ffffbf",
                "#fee08b", "#fdae61", "#f46d43", "#d53e4f", "#9e0142"]
  | _ => none

/-- Line 39: `x = list(itertools.product(skills, countries))` — the ordered
cartesian product, skill outer, country inner. -/
def productList (skills countries : List String) : List (String × String) :=
  skills.flatMap fun s => countries.map fun c => (s, c)

/-- Line 43: `df2 = df[pd.Series(zip(df["skill_group_name"],
df["country_name"])).isin(x)]` — the rows of the source whose key occurs in
`x`, in source order. -/
def df2Of (df : List SourceRow) (x : List (String × String)) : List SourceRow :=
  df.filter fun r => decide (keyOf r ∈ x)

/-- Rows of `pd.merge(df1, df2, on=["skill_group_name", "country_name"],
how="outer")` where `df1` is the skeleton frame built from `x`: each left key
in order yields its matching right rows (or one all-`none` row when
unmatched), then the right rows whose key occurs in no left row follow. -/
def mergedRows (x : List (String × String)) (df2 : List SourceRow) :
    List MergedRow :=
  (x.flatMap fun p =>
    match df2.filter (fun r => decide (keyOf r = p)) with
    | [] => [⟨p.1, p.2, none, none⟩]
    | ms => ms.map fun r =>
        ⟨p.1, p.2, some r.relative_skill_group_penetration,
          some r.n_occupations_country_skill⟩)
  ++ (df2.filter fun r => decide (keyOf r ∉ x)).map fun r =>
      ⟨r.skill_group_name, r.country_name,
        some r.relative_skill_group_penetration,
        some r.n_occupations_country_skill⟩

/-- The merged frame of lines 46 and 50 (both merges take the same inputs and
are pure, hence equal; the model computes it once). -/
def mergedTable (df : List SourceRow) (countries skills : List String) :
    List MergedRow :=
  mergedRows (productList skills countries)
    (df2Of df (productList skills countries))

/-- Lines 56-60: the `color` entry.  `len(skills) * Spectral[len(countries)]`
repeats the palette tuple once per skill; the other branch repeats the fixed
default color `len(countries) * len(skills)` times.  Inside the guard
`2 < len(countries) <= 11` the palette lookup is total (theorem below), so
the `getD []` default is never taken where Python would index the dict. -/
def colorOf (countries skills : List String) : List String :=
  if 2 < countries.length ∧ countries.length ≤ 11 then
    (List.replicate skills.length ((Spectral countries.length).getD [])).flatten
  else
    List.replicate (countries.length * skills.length) "#1f77b4"

/-- Embedding of `get_data(df, countries, skills)` (lines 35-62) on a
well-formed source table. -/
def get_data (df : List SourceRow) (countries skills : List String) :
    GridData :=
  let x := productList skills countries
  let merged := mergedRows x (df2Of df x)
  { x := x
    y := merged.map fun m => m.relative_skill_group_penetration
    z := merged.map fun m => m.n_occupations_country_skill
    color := colorOf countries skills }

/-- State-passing form of `get_data`: the source table is threaded through
the call and returned alongside the grid.  Every operation the Python body
performs on `df` (column reads, boolean-mask selection, `pd.merge`) returns a
new object, so the final state is the input table. -/
def get_data_st (df : List SourceRow) (countries skills : List String) :
    GridData × List SourceRow :=
  let x := productList skills countries
  let df2 := df2Of df x
  let merged := mergedRows x df2
  ({ x := x
     y := merged.map fun m => m.relative_skill_group_penetration
     z := merged.map fun m => m.n_occupations_country_skill
     color := colorOf countries skills }, df)

/-- Observable events of one `get_data` call: a pandas merge being executed,
or a `KeyError` naming a missing column. -/
inductive Ev where
  | join : Ev
  | keyError : String → Ev
  deriving DecidableEq, Repr

/-- A raw source frame: its column names together with its rows.  Selecting a
column that is not in `columns` raises `KeyError`. -/
structure RawDF where
  columns : List String
  rows : List SourceRow

/-- The four columns `get_data` reads from the source table. -/
def requiredColumns : List String :=
  ["skill_group_name", "country_name", "relative_skill_group_penetration",
    "n_occupations_country_skill"]

/-- Embedding of `get_data` on a raw frame, recording the order of merges and
`KeyError`s exactly as the Python statements execute: line 43 reads
`df["skill_group_name"]` then `df["country_name"]` before any merge; line 46
runs the first merge and then selects `relative_skill_group_penetration` from
its result (whose columns are the keys plus the columns of `df`); line 50
runs the second merge and then selects `n_occupations_country_skill`. -/
def get_data_traced (df : RawDF) (countries skills : List String) :
    List Ev × Option GridData :=
  if "skill_group_name" ∉ df.columns then
    ([Ev.keyError "skill_group_name"], none)
  else if "country_name" ∉ df.columns then
    ([Ev.keyError "country_name"], none)
  else if "relative_skill_group_penetration" ∉ df.columns then
    ([Ev.join, Ev.keyError "relative_skill_group_penetration"], none)
  else if "n_occupations_country_skill" ∉ df.columns then
    ([Ev.join, Ev.join, Ev.keyError "n_occupations_country_skill"], none)
  else
    ([Ev.join, Ev.join], some (get_data df.rows countries skills))

/-! ### Helper lemmas about the embedded operations -/

/-- Unfolding of the cartesian product on a cons cell. -/
theorem productList_cons (s : String) (ss cs : List String) :
    productList (s :: ss) cs =
      (cs.map fun c => (s, c)) ++ productList ss cs := by
  simp [productList]

/-- The skeleton has `|skills| * |countries|` pairs. -/
theorem productList_length (ss cs : List String) :
    (productList ss cs).length = ss.length * cs.length := by
  induction ss with
  | nil => simp [productList]
  | cons s ss ih =>
      rw [productList_cons, List.length_append, List.length_map, ih]
      simp [Nat.succ_mul, Nat.add_comm]

/-- Row-major indexing of the skeleton: entry `i * |countries| + j` is the
pair of the `i`-th skill with the `j`-th country. -/
theorem productList_getElem? (ss cs : List String) (i j : Nat)
    (hi : i < ss.length) (hj : j < cs.length) :
    (productList ss cs)[i * cs.length + j]? = some (ss[i], cs[j]) := by
  induction ss generalizing i with
  | nil => simp at hi
  | cons s ss ih =>
      rw [productList_cons]
      cases i with
      | zero =>
          have hidx : 0 * cs.length + j = j := by omega
          rw [hidx, List.getElem?_append,
            if_pos (by simpa using hj), List.getElem?_map,
            List.getElem?_eq_getElem hj]
          rfl
      | succ i =>
          have hlen : (List.map (fun c => (s, c)) cs).length = cs.length :=
            List.length_map _ _
          have hmul : (i + 1) * cs.length = i * cs.length + cs.length := by
            ring
          have hge : (List.map (fun c => (s, c)) cs).length ≤
              (i + 1) * cs.length + j := by
            rw [hlen]; omega
          rw [List.getElem?_append_right hge]
          have hsub : (i + 1) * cs.length + j -
              (List.map (fun c => (s, c)) cs).length = i * cs.length + j := by
            rw [hlen]; omega
          rw [hsub]
          have hi' : i < ss.length := by simpa using Nat.lt_of_succ_lt_succ hi
          rw [ih i hi']
          simp

/-- Membership in the skeleton is componentwise membership. -/
theorem mem_productList (ss cs : List String) (s c : String) :
    (s, c) ∈ productList ss cs ↔ s ∈ ss ∧ c ∈ cs := by
  simp [productList, List.mem_flatMap, List.mem_map, Prod.ext_iff]

/-- Length of `m` flattened copies of a list. -/
theorem flatten_replicate_length (m : Nat) (l : List String) :
    (List.replicate m l).flatten.length = m * l.length := by
  induction m with
  | zero => simp
  | succ m ih =>
      rw [List.replicate_succ, List.flatten_cons, List.length_append, ih,
        Nat.succ_mul]
      omega

/-- Indexing into `m` flattened copies of a list: position `i * |l| + j` of
the flattening holds `l[j]`, for every copy index `i < m`. -/
theorem flatten_replicate_getElem? (m i j : Nat) (l : List String)
    (hi : i < m) (hj : j < l.length) :
    (List.replicate m l).flatten[i * l.length + j]? = l[j]? := by
  induction m generalizing i with
  | zero => omega
  | succ m ih =>
      rw [List.replicate_succ, List.flatten_cons]
      cases i with
      | zero =>
          have hidx : 0 * l.length + j = j := by omega
          rw [hidx, List.getElem?_append, if_pos hj]
      | succ i =>
          have hmul : (i + 1) * l.length = i * l.length + l.length := by ring
          have hge : l.length ≤ (i + 1) * l.length + j := by omega
          rw [List.getElem?_append_right hge]
          have hsub : (i + 1) * l.length + j - l.length = i * l.length + j := by
            omega
          rw [hsub]
          exact ih i (Nat.lt_of_succ_lt_succ hi)

/-- The single merged row the outer merge produces for key `p` when the
filtered source has at most one match per key. -/
def mergeOne (df2 : List SourceRow) (p : String × String) : MergedRow :=
  match df2.filter (fun r => decide (keyOf r = p)) with
  | [] => ⟨p.1, p.2, none, none⟩
  | r :: _ =>
      ⟨p.1, p.2, some r.relative_skill_group_penetration,
        some r.n_occupations_country_skill⟩

/-- When the keys of `l` are pairwise distinct, at most one row matches any
given key. -/
theorem filter_key_length_le_one (l : List SourceRow)
    (h : (l.map keyOf).Nodup) (p : String × String) :
    (l.filter fun r => decide (keyOf r = p)).length ≤ 1 := by
  induction l with
  | nil => simp
  | cons r l ih =>
      rw [List.map_cons, List.nodup_cons] at h
      by_cases hk : keyOf r = p
      · rw [List.filter_cons_of_pos (by simp [hk])]
        have hnil : (l.filter fun r' => decide (keyOf r' = p)) = [] := by
          rw [List.filter_eq_nil_iff]
          intro a ha hc
          rw [decide_eq_true_eq] at hc
          exact h.1 (hk ▸ hc ▸ List.mem_map_of_mem keyOf ha)
        rw [hnil]
        simp
      · rw [List.filter_cons_of_neg (by simp [hk])]
        exact ih h.2

/-- Keys of the filtered source are pairwise distinct whenever the keys of
the source are. -/
theorem df2Of_keys_nodup (df : List SourceRow) (x : List (String × String))
    (h : (df.map keyOf).Nodup) : ((df2Of df x).map keyOf).Nodup :=
  h.sublist ((List.filter_sublist df).map keyOf)

/-- Every row of the filtered source has its key in the skeleton, so the
right-only tail of the outer merge is empty. -/
theorem mergedRows_right_nil (df : List SourceRow)
    (x : List (String × String)) :
    ((df2Of df x).filter fun r => decide (keyOf r ∉ x)) = [] := by
  rw [List.filter_eq_nil_iff]
  intro r hr
  have := (List.mem_filter.1 hr).2
  simp_all [df2Of, List.mem_filter]

/-- With at most one source match per key, the matched part of the outer
merge is one output row per skeleton key, in skeleton order. -/
theorem flatMap_eq_map_mergeOne (df2 : List SourceRow)
    (huniq : ∀ p, (df2.filter fun r => decide (keyOf r = p)).length ≤ 1)
    (x : List (String × String)) :
    (x.flatMap fun p =>
      match df2.filter (fun r => decide (keyOf r = p)) with
      | [] => ([⟨p.1, p.2, none, none⟩] : List MergedRow)
      | ms => ms.map fun r =>
          ⟨p.1, p.2, some r.relative_skill_group_penetration,
            some r.n_occupations_country_skill⟩) =
      x.map (mergeOne df2) := by
  induction x with
  | nil => simp
  | cons p x ih =>
      rw [List.flatMap_cons, List.map_cons, ih]
      cases hf : df2.filter (fun r => decide (keyOf r = p)) with
      | nil => simp only [mergeOne]; rw [hf]; simp
      | cons r rest =>
          have hlen := huniq p
          rw [hf] at hlen
          have hrest : rest = [] := by
            cases rest with
            | nil => rfl
            | cons a as => simp at hlen
          subst hrest
          simp only [mergeOne]
          rw [hf]
          simp

/-- With at most one source match per key and no right-only rows, the outer
merge is one output row per skeleton key, in skeleton order. -/
theorem mergedRows_eq_map (x : List (String × String)) (df2 : List SourceRow)
    (hnil : (df2.filter fun r => decide (keyOf r ∉ x)) = [])
    (huniq : ∀ p, (df2.filter fun r => decide (keyOf r = p)).length ≤ 1) :
    mergedRows x df2 = x.map (mergeOne df2) := by
  unfold mergedRows
  rw [hnil, List.map_nil, List.append_nil]
  exact flatMap_eq_map_mergeOne df2 huniq x

/-- Under the unique-key precondition the merged frame is the skeleton mapped
through `mergeOne`. -/
theorem mergedTable_eq_map (df : List SourceRow) (cs ss : List String)
    (h : (df.map keyOf).Nodup) :
    mergedTable df cs ss =
      (productList ss cs).map
        (mergeOne (df2Of df (productList ss cs))) :=
  mergedRows_eq_map _ _ (mergedRows_right_nil df _)
    (filter_key_length_le_one _ (df2Of_keys_nodup df _ h))

/-- The merged row for the key of a present source row carries that row's two
measure values, when keys match at most once. -/
theorem mergeOne_of_mem (df2 : List SourceRow) (r : SourceRow)
    (huniq : ∀ p, (df2.filter fun r' => decide (keyOf r' = p)).length ≤ 1)
    (hr : r ∈ df2) :
    mergeOne df2 (keyOf r) =
      ⟨r.skill_group_name, r.country_name,
        some r.relative_skill_group_penetration,
        some r.n_occupations_country_skill⟩ := by
  have hmem : r ∈ df2.filter fun r' => decide (keyOf r' = keyOf r) :=
    List.mem_filter.2 ⟨hr, by simp⟩
  cases hf : df2.filter (fun r' => decide (keyOf r' = keyOf r)) with
  | nil => rw [hf] at hmem; simp at hmem
  | cons a rest =>
      have hlen := huniq (keyOf r)
      rw [hf] at hlen hmem
      have hrest : rest = [] := by
        cases rest with
        | nil => rfl
        | cons b bs => simp at hlen
      subst hrest
      have hra : r = a := by simpa using hmem
      subst hra
      simp only [mergeOne]
      rw [hf]
      simp [keyOf]

/-- The merged row for a key with no source match has both measures null. -/
theorem mergeOne_of_not_mem (df2 : List SourceRow) (p : String × String)
    (h : ∀ r ∈ df2, keyOf r ≠ p) :
    mergeOne df2 p = ⟨p.1, p.2, none, none⟩ := by
  have hf : (df2.filter fun r => decide (keyOf r = p)) = [] := by
    rw [List.filter_eq_nil_iff]
    intro r hr
    simp [h r hr]
  simp [mergeOne, hf]

/-- The palette dictionary is defined exactly on sizes 3 through 11, with a
tuple of matching length. -/
theorem Spectral_spec (n : Nat) (h1 : 2 < n) (h2 : n ≤ 11) :
    ∃ pal, Spectral n = some pal ∧ pal.length = n := by
  interval_cases n <;> exact ⟨_, rfl, rfl⟩

/-- Length of the palette retrieved inside the guard. -/
theorem Spectral_getD_length (n : Nat) (h1 : 2 < n) (h2 : n ≤ 11) :
    ((Spectral n).getD []).length = n := by
  obtain ⟨pal, hp, hl⟩ := Spectral_spec n h1 h2
  rw [hp]
  simpa using hl

/-- The color list always has `|skills| * |countries|` entries. -/
theorem colorOf_length (cs ss : List String) :
    (colorOf cs ss).length = ss.length * cs.length := by
  unfold colorOf
  split
  · rename_i h
    rw [flatten_replicate_length, Spectral_getD_length _ h.1 h.2]
  · rw [List.length_replicate]
    ring

/-- Projection: the pairs entry of the returned dictionary. -/
theorem get_data_x (df : List SourceRow) (cs ss : List String) :
    (get_data df cs ss).x = productList ss cs := rfl

/-- Projection: the ratio entry of the returned dictionary. -/
theorem get_data_y (df : List SourceRow) (cs ss : List String) :
    (get_data df cs ss).y =
      (mergedTable df cs ss).map
        (fun m => m.relative_skill_group_penetration) := rfl

/-- Projection: the occupation-count entry of the returned dictionary. -/
theorem get_data_z (df : List SourceRow) (cs ss : List String) :
    (get_data df cs ss).z =
      (mergedTable df cs ss).map
        (fun m => m.n_occupations_country_skill) := rfl

/-- Projection: the color entry of the returned dictionary. -/
theorem get_data_color (df : List SourceRow) (cs ss : List String) :
    (get_data df cs ss).color = colorOf cs ss := rfl

/-- The skeleton of an empty country selection is empty. -/
theorem productList_nil_right (ss : List String) : productList ss [] = [] := by
  induction ss with
  | nil => rfl
  | cons s ss ih => rw [productList_cons, ih]; rfl

/-! ### Claims -/

/-- C1, counterexample: for a source table holding two rows with the same
(skill, country) key, the value list `y` has 2 entries although
`len(skills) * len(countries) = 1`, so the claim fails for source tables
with duplicate keys. -/
theorem C1_counterexample :
    (get_data [⟨"A", "X", 1, 1⟩, ⟨"A", "X", 2, 2⟩] ["X"] ["A"]).y.length = 2 ∧
    (["A"] : List String).length * (["X"] : List String).length = 1 := by
  exact ⟨rfl, rfl⟩

/-- C1 (amended): the pairs list `x` always has exactly
`len(skills) * len(countries)` entries; provided the source table has at most
one row per (skill, country) key, the value lists `y` and `z` have that
length as well. -/
theorem C1_grid_sizes (df : List SourceRow) (cs ss : List String) :
    (get_data df cs ss).x.length = ss.length * cs.length ∧
    ((df.map keyOf).Nodup →
      (get_data df cs ss).y.length = ss.length * cs.length ∧
      (get_data df cs ss).z.length = ss.length * cs.length) := by
  refine ⟨by rw [get_data_x, productList_length], fun h => ?_⟩
  have hm := mergedTable_eq_map df cs ss h
  constructor
  · rw [get_data_y, hm, List.length_map, List.length_map, productList_length]
  · rw [get_data_z, hm, List.length_map, List.length_map, productList_length]

/-- C1, witness at a concrete unique-key table. -/
theorem C1_grid_sizes_witness :
    (get_data [⟨"AI", "Kenya", 3, 12⟩] ["Kenya", "Germany"] ["AI"]).x.length =
      (["AI"] : List String).length *
        (["Kenya", "Germany"] : List String).length ∧
    ((get_data [⟨"AI", "Kenya", 3, 12⟩] ["Kenya", "Germany"]
        ["AI"]).y.length =
      (["AI"] : List String).length *
        (["Kenya", "Germany"] : List String).length ∧
    (get_data [⟨"AI", "Kenya", 3, 12⟩] ["Kenya", "Germany"] ["AI"]).z.length =
      (["AI"] : List String).length *
        (["Kenya", "Germany"] : List String).length) :=
  ⟨(C1_grid_sizes _ _ _).1, (C1_grid_sizes _ _ _).2 (by decide)⟩

/-- C2: the pairs list is the cartesian product in row-major order, skill
outer and country inner: entry `i * |countries| + j` pairs the `i`-th skill
with the `j`-th country, there are `|skills| * |countries|` pairs, and for
skills `[A, B]` and countries `[X, Y]` the order is
`(A,X), (A,Y), (B,X), (B,Y)`. -/
theorem C2_pairs_row_major (df : List SourceRow) (cs ss : List String) :
    (∀ (i j : Nat) (hi : i < ss.length) (hj : j < cs.length),
      (get_data df cs ss).x[i * cs.length + j]? = some (ss[i], cs[j])) ∧
    (get_data df cs ss).x.length = ss.length * cs.length ∧
    (get_data df ["X", "Y"] ["A", "B"]).x =
      [("A", "X"), ("A", "Y"), ("B", "X"), ("B", "Y")] := by
  refine ⟨fun i j hi hj => ?_, ?_, rfl⟩
  · rw [get_data_x]
    exact productList_getElem? ss cs i j hi hj
  · rw [get_data_x, productList_length]

/-- C2, witness: pair (1, 0) of the 2-by-2 selection. -/
theorem C2_pairs_row_major_witness :
    (get_data ([] : List SourceRow) ["X", "Y"] ["A", "B"]).x[1 * 2 + 0]? =
      some ((["A", "B"] : List String)[1], (["X", "Y"] : List String)[0]) :=
  (C2_pairs_row_major [] ["X", "Y"] ["A", "B"]).1 1 0 (by decide) (by decide)

/-- C5: color assignment follows the count-based policy.  When
`2 < len(countries) <= 11`, entry `i * |countries| + j` of the color list is
the `j`-th palette color, independently of the skill index `i` (so each
country keeps one color across every skill); otherwise every entry is the
fixed default color `#1f77b4`. -/
theorem C5_color_policy (df : List SourceRow) (cs ss : List String) :
    (2 < cs.length ∧ cs.length ≤ 11 →
      ((Spectral cs.length).getD []).length = cs.length ∧
      ∀ (i j : Nat), i < ss.length → j < cs.length →
        (get_data df cs ss).color[i * cs.length + j]? =
          ((Spectral cs.length).getD [])[j]?) ∧
    (¬(2 < cs.length ∧ cs.length ≤ 11) →
      ∀ col ∈ (get_data df cs ss).color, col = "#1f77b4") := by
  constructor
  · rintro ⟨h1, h2⟩
    have hlen := Spectral_getD_length cs.length h1 h2
    refine ⟨hlen, fun i j hi hj => ?_⟩
    have hc : (get_data df cs ss).color =
        (List.replicate ss.length ((Spectral cs.length).getD [])).flatten := by
      rw [get_data_color]
      unfold colorOf
      rw [if_pos ⟨h1, h2⟩]
    rw [hc]
    have hj' : j < ((Spectral cs.length).getD []).length := by
      rw [hlen]; exact hj
    have hidx := flatten_replicate_getElem? ss.length i j
      ((Spectral cs.length).getD []) hi hj'
    rw [hlen] at hidx
    exact hidx
  · intro h col hcol
    have hc : (get_data df cs ss).color =
        List.replicate (cs.length * ss.length) "#1f77b4" := by
      rw [get_data_color]
      unfold colorOf
      rw [if_neg h]
    rw [hc] at hcol
    exact List.eq_of_mem_replicate hcol

/-- C5, witness: the palette branch at 3 countries and the default branch at
1 country. -/
theorem C5_color_policy_witness :
    (get_data ([] : List SourceRow) ["X", "Y", "Z"] ["A"]).color[0 * 3 + 1]? =
      ((Spectral (["X", "Y", "Z"] : List String).length).getD [])[1]? ∧
    "#1f77b4" = "#1f77b4" :=
  ⟨((C5_color_policy [] ["X", "Y", "Z"] ["A"]).1
      (by decide)).2 0 1 (by decide) (by decide),
    (C5_color_policy [] ["X"] ["A"]).2 (by decide) "#1f77b4" (by decide)⟩

/-- C6: an empty skill selection or an empty country selection yields the
empty grid — all four lists are empty — and, on a source frame with the
expected columns, no error is raised. -/
theorem C6_empty_selection (df : List SourceRow) (cs ss : List String)
    (h : ss = [] ∨ cs = []) :
    (get_data df cs ss).x = [] ∧ (get_data df cs ss).y = [] ∧
    (get_data df cs ss).z = [] ∧ (get_data df cs ss).color = [] ∧
    (get_data_traced ⟨requiredColumns, df⟩ cs ss).2 =
      some (get_data df cs ss) := by
  have hx : productList ss cs = [] := by
    rcases h with rfl | rfl
    · rfl
    · exact productList_nil_right ss
  have hdf2 : df2Of df ([] : List (String × String)) = [] := by
    unfold df2Of
    rw [List.filter_eq_nil_iff]
    intro r hr
    simp
  have hm : mergedTable df cs ss = [] := by
    unfold mergedTable
    rw [hx, hdf2]
    rfl
  have hcolor : colorOf cs ss = [] := by
    unfold colorOf
    rcases h with rfl | rfl
    · split
      · simp
      · simp
    · rw [if_neg (by simp)]
      simp
  refine ⟨by rw [get_data_x, hx], by rw [get_data_y, hm]; rfl,
    by rw [get_data_z, hm]; rfl, by rw [get_data_color, hcolor], rfl⟩

/-- C6, witness at an empty skill selection. -/
theorem C6_empty_selection_witness :
    (get_data ([] : List SourceRow) ["X"] []).x = [] ∧
    (get_data ([] : List SourceRow) ["X"] []).y = [] ∧
    (get_data ([] : List SourceRow) ["X"] []).z = [] ∧
    (get_data ([] : List SourceRow) ["X"] []).color = [] ∧
    (get_data_traced ⟨requiredColumns, []⟩ ["X"] []).2 =
      some (get_data ([] : List SourceRow) ["X"] []) :=
  C6_empty_selection [] ["X"] [] (Or.inl rfl)

/-- C8: `get_data` is a pure transform: the state-passing form returns the
source table unchanged, its grid is exactly `get_data`, and equal inputs give
equal results. -/
theorem C8_purity (df : List SourceRow) (cs ss : List String) :
    (get_data_st df cs ss).2 = df ∧
    (get_data_st df cs ss).1 = get_data df cs ss ∧
    ∀ (df' : List SourceRow) (cs' ss' : List String),
      df' = df → cs' = cs → ss' = ss →
      get_data_st df' cs' ss' = get_data_st df cs ss := by
  refine ⟨rfl, rfl, ?_⟩
  rintro df' cs' ss' rfl rfl rfl
  rfl

/-- C8, witness at a concrete call. -/
theorem C8_purity_witness :
    (get_data_st [⟨"AI", "Kenya", 3, 12⟩] ["Kenya"] ["AI"]).2 =
      [⟨"AI", "Kenya", 3, 12⟩] ∧
    get_data_st [⟨"AI", "Kenya", 3, 12⟩] ["Kenya"] ["AI"] =
      get_data_st [⟨"AI", "Kenya", 3, 12⟩] ["Kenya"] ["AI"] :=
  ⟨(C8_purity [⟨"AI", "Kenya", 3, 12⟩] ["Kenya"] ["AI"]).1,
    (C8_purity [⟨"AI", "Kenya", 3, 12⟩] ["Kenya"] ["AI"]).2.2
      [⟨"AI", "Kenya", 3, 12⟩] ["Kenya"] ["AI"] rfl rfl rfl⟩

/-- C10: whenever the palette branch guard `2 < len(countries) <= 11` holds,
the lookup `Spectral[len(countries)]` is defined and returns a palette of
exactly `len(countries)` colors, so `get_data` never fails on palette
indexing. -/
theorem C10_palette_total (countries : List String)
    (h1 : 2 < countries.length) (h2 : countries.length ≤ 11) :
    ∃ pal, Spectral countries.length = some pal ∧
      pal.length = countries.length :=
  Spectral_spec countries.length h1 h2

/-- C10, witness at four countries. -/
theorem C10_palette_total_witness :
    ∃ pal, Spectral (["w", "x", "y", "z"] : List String).length = some pal ∧
      pal.length = (["w", "x", "y", "z"] : List String).length :=
  C10_palette_total ["w", "x", "y", "z"] (by decide) (by decide)

/-- C3: when source keys are unique, a selected pair present in the source
with ratio `r` and count `n` yields exactly those values at the pair's
position in the grid. -/
theorem C3_present_pair_values (df : List SourceRow) (cs ss : List String)
    (r : SourceRow) (i : Nat)
    (hnd : (df.map keyOf).Nodup) (hr : r ∈ df)
    (hx : (get_data df cs ss).x[i]? = some (keyOf r)) :
    (get_data df cs ss).y[i]? =
      some (some r.relative_skill_group_penetration) ∧
    (get_data df cs ss).z[i]? =
      some (some r.n_occupations_country_skill) := by
  have hx' : (productList ss cs)[i]? = some (keyOf r) := hx
  have hmemx : keyOf r ∈ productList ss cs := by
    obtain ⟨hlt, hget⟩ := List.getElem?_eq_some_iff.1 hx'
    exact hget ▸ List.getElem_mem hlt
  have hr2 : r ∈ df2Of df (productList ss cs) :=
    List.mem_filter.2 ⟨hr, by simpa using hmemx⟩
  have huniq := filter_key_length_le_one _
    (df2Of_keys_nodup df (productList ss cs) hnd)
  have hmerge := mergeOne_of_mem _ r huniq hr2
  constructor
  · rw [get_data_y, mergedTable_eq_map df cs ss hnd,
      List.getElem?_map, List.getElem?_map, hx']
    simp [hmerge]
  · rw [get_data_z, mergedTable_eq_map df cs ss hnd,
      List.getElem?_map, List.getElem?_map, hx']
    simp [hmerge]

/-- C3, witness: the (AI, Kenya) row with ratio 3 and count 12 at position 0
of the selection. -/
theorem C3_present_pair_values_witness :
    (get_data [⟨"AI", "Kenya", 3, 12⟩] ["Kenya", "Germany"] ["AI"]).y[0]? =
      some (some (3 : ℚ)) ∧
    (get_data [⟨"AI", "Kenya", 3, 12⟩] ["Kenya", "Germany"] ["AI"]).z[0]? =
      some (some (12 : ℚ)) :=
  C3_present_pair_values [⟨"AI", "Kenya", 3, 12⟩] ["Kenya", "Germany"] ["AI"]
    ⟨"AI", "Kenya", 3, 12⟩ 0 (by decide) (by decide) (by decide)

/-- C4: a selected pair absent from the source is not omitted and raises no
error: the pair occurs in `x`, a merged row for it exists, every merged row
for it carries null measures, and on a frame with the expected columns the
traced call returns the grid rather than an error. -/
theorem C4_absent_pair (df : List SourceRow) (cs ss : List String)
    (s c : String) (hs : s ∈ ss) (hc : c ∈ cs)
    (habs : ∀ r ∈ df, keyOf r ≠ (s, c)) :
    (s, c) ∈ (get_data df cs ss).x ∧
    (∃ m ∈ mergedTable df cs ss, m.key = (s, c)) ∧
    (∀ m ∈ mergedTable df cs ss, m.key = (s, c) →
      m.relative_skill_group_penetration = none ∧
      m.n_occupations_country_skill = none) ∧
    (get_data_traced ⟨requiredColumns, df⟩ cs ss).2 =
      some (get_data df cs ss) := by
  have hmx : (s, c) ∈ productList ss cs :=
    (mem_productList ss cs s c).2 ⟨hs, hc⟩
  have habs2 : ∀ r ∈ df2Of df (productList ss cs), keyOf r ≠ (s, c) :=
    fun r hr => habs r (List.mem_filter.1 hr).1
  have hfnil : (df2Of df (productList ss cs)).filter
      (fun r => decide (keyOf r = (s, c))) = [] := by
    rw [List.filter_eq_nil_iff]
    intro r hr
    simp [habs2 r hr]
  refine ⟨hmx, ?_, ?_, rfl⟩
  · refine ⟨⟨s, c, none, none⟩, ?_, rfl⟩
    show _ ∈ mergedRows (productList ss cs) (df2Of df (productList ss cs))
    apply List.mem_append_left
    apply List.mem_flatMap.2
    refine ⟨(s, c), hmx, ?_⟩
    rw [hfnil]
    simp
  · intro m hm hkey
    have hm' : m ∈ mergedRows (productList ss cs)
        (df2Of df (productList ss cs)) := hm
    rcases List.mem_append.1 hm' with h1 | h2
    · obtain ⟨⟨p1, p2⟩, hp, hmp⟩ := List.mem_flatMap.1 h1
      cases hf : (df2Of df (productList ss cs)).filter
          (fun r => decide (keyOf r = (p1, p2))) with
      | nil =>
          rw [hf] at hmp
          simp at hmp
          subst hmp
          exact ⟨rfl, rfl⟩
      | cons a rest =>
          rw [hf] at hmp
          simp only [List.mem_map] at hmp
          obtain ⟨r', hr', hmr⟩ := hmp
          have hrf : r' ∈ (df2Of df (productList ss cs)).filter
              (fun r => decide (keyOf r = (p1, p2))) := by
            rw [hf]; exact hr'
          have hkr : keyOf r' = (p1, p2) := by
            simpa using (List.mem_filter.1 hrf).2
          have hrdf2 : r' ∈ df2Of df (productList ss cs) :=
            (List.mem_filter.1 hrf).1
          subst hmr
          simp only [MergedRow.key] at hkey
          exact absurd (hkr.trans hkey) (habs2 r' hrdf2)
    · rw [mergedRows_right_nil df (productList ss cs)] at h2
      simp at h2

/-- C4, witness: (AI, Germany) is selected but absent from the source. -/
theorem C4_absent_pair_witness :
    ("AI", "Germany") ∈
      (get_data [⟨"AI", "Kenya", 3, 12⟩] ["Kenya", "Germany"] ["AI"]).x ∧
    (∃ m ∈ mergedTable [⟨"AI", "Kenya", 3, 12⟩] ["Kenya", "Germany"] ["AI"],
      m.key = ("AI", "Germany")) ∧
    (∀ m ∈ mergedTable [⟨"AI", "Kenya", 3, 12⟩] ["Kenya", "Germany"] ["AI"],
      m.key = ("AI", "Germany") →
      m.relative_skill_group_penetration = none ∧
      m.n_occupations_country_skill = none) ∧
    (get_data_traced ⟨requiredColumns, [⟨"AI", "Kenya", 3, 12⟩]⟩
        ["Kenya", "Germany"] ["AI"]).2 =
      some (get_data [⟨"AI", "Kenya", 3, 12⟩] ["Kenya", "Germany"] ["AI"]) :=
  C4_absent_pair [⟨"AI", "Kenya", 3, 12⟩] ["Kenya", "Germany"] ["AI"]
    "AI" "Germany" (by decide) (by decide) (by decide)

/-- C7, counterexample: on a frame whose key columns are present but whose
`relative_skill_group_penetration` column is missing, the call performs a
join first and only then raises the KeyError, so it does not fail before any
join as claimed. -/
theorem C7_counterexample :
    (get_data_traced ⟨["skill_group_name", "country_name",
        "n_occupations_country_skill"], []⟩ [] []).1 =
      [Ev.join, Ev.keyError "relative_skill_group_penetration"] ∧
    "relative_skill_group_penetration" ∉
      (["skill_group_name", "country_name",
        "n_occupations_country_skill"] : List String) ∧
    "relative_skill_group_penetration" ∈ requiredColumns :=
  ⟨rfl, by decide, by decide⟩

/-- C7 (amended): a missing expected column always surfaces as a KeyError
naming that column, and no grid is produced; the error precedes any join when
`skill_group_name` or `country_name` is missing, while a missing measure
column is detected only after one join
(`relative_skill_group_penetration`) or two joins
(`n_occupations_country_skill`). -/
theorem C7_missing_column_behavior (df : RawDF) (cs ss : List String) :
    (("skill_group_name" ∉ df.columns ∨
        ("skill_group_name" ∈ df.columns ∧ "country_name" ∉ df.columns)) →
      ∃ col, col ∈ requiredColumns ∧ col ∉ df.columns ∧
        (get_data_traced df cs ss).1 = [Ev.keyError col] ∧
        (get_data_traced df cs ss).2 = none) ∧
    ("skill_group_name" ∈ df.columns → "country_name" ∈ df.columns →
      "relative_skill_group_penetration" ∉ df.columns →
      (get_data_traced df cs ss).1 =
        [Ev.join, Ev.keyError "relative_skill_group_penetration"] ∧
      (get_data_traced df cs ss).2 = none) ∧
    ("skill_group_name" ∈ df.columns → "country_name" ∈ df.columns →
      "relative_skill_group_penetration" ∈ df.columns →
      "n_occupations_country_skill" ∉ df.columns →
      (get_data_traced df cs ss).1 =
        [Ev.join, Ev.join, Ev.keyError "n_occupations_country_skill"] ∧
      (get_data_traced df cs ss).2 = none) := by
  refine ⟨?_, ?_, ?_⟩
  · rintro (h | ⟨h1, h2⟩)
    · exact ⟨"skill_group_name", by simp [requiredColumns], h,
        by simp [get_data_traced, h], by simp [get_data_traced, h]⟩
    · exact ⟨"country_name", by simp [requiredColumns], h2,
        by simp [get_data_traced, h1, h2], by simp [get_data_traced, h1, h2]⟩
  · intro h1 h2 h3
    constructor <;> simp [get_data_traced, h1, h2, h3]
  · intro h1 h2 h3 h4
    constructor <;> simp [get_data_traced, h1, h2, h3, h4]

/-- C7, witness: one frame per missing-column case. -/
theorem C7_missing_column_witness :
    (∃ col, col ∈ requiredColumns ∧
      col ∉ (["country_name"] : List String) ∧
      (get_data_traced ⟨["country_name"], []⟩ [] []).1 =
        [Ev.keyError col] ∧
      (get_data_traced ⟨["country_name"], []⟩ [] []).2 = none) ∧
    ((get_data_traced ⟨["skill_group_name", "country_name"], []⟩ [] []).1 =
        [Ev.join, Ev.keyError "relative_skill_group_penetration"] ∧
      (get_data_traced ⟨["skill_group_name", "country_name"], []⟩
        [] []).2 = none) ∧
    ((get_data_traced ⟨["skill_group_name", "country_name",
        "relative_skill_group_penetration"], []⟩ [] []).1 =
        [Ev.join, Ev.join, Ev.keyError "n_occupations_country_skill"] ∧
      (get_data_traced ⟨["skill_group_name", "country_name",
        "relative_skill_group_penetration"], []⟩ [] []).2 = none) :=
  ⟨(C7_missing_column_behavior ⟨["country_name"], []⟩ [] []).1
      (Or.inl (by decide)),
    (C7_missing_column_behavior ⟨["skill_group_name", "country_name"], []⟩
      [] []).2.1 (by decide) (by decide) (by decide),
    (C7_missing_column_behavior ⟨["skill_group_name", "country_name",
      "relative_skill_group_penetration"], []⟩ [] []).2.2
      (by decide) (by decide) (by decide) (by decide)⟩

/-- C9: with unique source keys the four returned lists — pairs, ratios,
counts, colors — all have the same length. -/
theorem C9_aligned_lengths (df : List SourceRow) (cs ss : List String)
    (hnd : (df.map keyOf).Nodup) :
    (get_data df cs ss).x.length = (get_data df cs ss).y.length ∧
    (get_data df cs ss).y.length = (get_data df cs ss).z.length ∧
    (get_data df cs ss).z.length = (get_data df cs ss).color.length := by
  have hm := mergedTable_eq_map df cs ss hnd
  have hx : (get_data df cs ss).x.length = ss.length * cs.length := by
    rw [get_data_x, productList_length]
  have hy : (get_data df cs ss).y.length = ss.length * cs.length := by
    rw [get_data_y, List.length_map, hm, List.length_map, productList_length]
  have hz : (get_data df cs ss).z.length = ss.length * cs.length := by
    rw [get_data_z, List.length_map, hm, List.length_map, productList_length]
  have hc : (get_data df cs ss).color.length = ss.length * cs.length := by
    rw [get_data_color, colorOf_length]
  exact ⟨by rw [hx, hy], by rw [hy, hz], by rw [hz, hc]⟩

/-- C9, witness at a concrete unique-key table. -/
theorem C9_aligned_lengths_witness :
    (get_data [⟨"AI", "Kenya", 3, 12⟩] ["Kenya", "Germany"] ["AI"]).x.length =
      (get_data [⟨"AI", "Kenya", 3, 12⟩] ["Kenya", "Germany"]
        ["AI"]).y.length ∧
    (get_data [⟨"AI", "Kenya", 3, 12⟩] ["Kenya", "Germany"] ["AI"]).y.length =
      (get_data [⟨"AI", "Kenya", 3, 12⟩] ["Kenya", "Germany"]
        ["AI"]).z.length ∧
    (get_data [⟨"AI", "Kenya", 3, 12⟩] ["Kenya", "Germany"] ["AI"]).z.length =
      (get_data [⟨"AI", "Kenya", 3, 12⟩] ["Kenya", "Germany"]
        ["AI"]).color.length :=
  C9_aligned_lengths [⟨"AI", "Kenya", 3, 12⟩] ["Kenya", "Germany"] ["AI"]
    (by decide)
